import Mathlib

/-!
# Verification of the invoice field-extraction engine

This file is a shallow embedding of `extract_invoice_fields` from `app.py`.
The Python function runs three `re.search` calls over the input text and
returns a record of three optional fields:

* invoice number: `re.search(r"(Invoice\s*#?:?\s*)([A-Za-z0-9\-]+)", text, re.IGNORECASE)`,
  returning group 2;
* invoice date: `re.search(r"(\d{2}[/\-]\d{2}[/\-]\d{4}|\d{4}[/\-]\d{2}[/\-]\d{2}|\d{1,2}\s+\w+\s+\d{4})", text)`,
  returning group 1;
* total amount: `re.search(r"(Total\s*Amount\s*:?|Grand\s*Total|Amount\s*Due|Balance)\s*\$?([\d,]+\.\d{2})", text, re.IGNORECASE)`,
  returning group 2.

Each regex is embedded as a matcher `List Char → Option String` that attempts
the pattern at the head of the list and returns the relevant capture group,
and `reSearch` replays `re.search`: try every start position left to right
and return the first success (this includes the end-of-string position, as in
Python).  The character classes are modelled at their ASCII meaning
(`\s = [ \t\n\r\x0b\x0c]`, `\d = [0-9]`, `\w = [A-Za-z0-9_]`), which is the
behaviour of the Python patterns on ASCII text.

Backtracking notes, justifying the deterministic matchers below:

* In all three patterns every `\s*` is followed by a literal or class that
  contains no whitespace character, so the greedy maximal run is the only
  viable choice; likewise `#?`, `:?` and `\$?` are each followed by material
  that cannot consume the optional character, so the greedy choice is forced.
* In `[\d,]+\.\d{2}` the character after any shortened run of `[\d,]` is
  itself in `[\d,]`, hence never `.`; so the only viable run is the maximal
  one and no backtracking into `+` can succeed.
* The four label alternatives of the total pattern start with the distinct
  letters t/g/a/b, so at a given position at most one alternative can match
  and committing to the first matching alternative is faithful.
* In `\d{1,2}\s+\w+\s+\d{4}` the quantifier `\d{1,2}` is greedy: two digits
  are tried first and the one-digit split is retried on failure, which
  `dateAlt3` reproduces literally.
-/

/-- ASCII behaviour of the Python regex class `\s`. -/
def pySpace (c : Char) : Bool :=
  c == ' ' || c == '\t' || c == '\n' || c == '\r' || c == '\x0b' || c == '\x0c'

/-- ASCII behaviour of the Python regex class `\w`: letters, digits, underscore. -/
def pyWord (c : Char) : Bool :=
  c.isAlphanum || c == '_'

/-- The class `[\d,]` from the total-amount pattern. -/
def numChar (c : Char) : Bool :=
  c.isDigit || c == ','

/-- The class `[A-Za-z0-9\-]` from the invoice-number pattern. -/
def invTokChar (c : Char) : Bool :=
  c.isAlphanum || c == '-'

/-- The class `[/\-]` from the date pattern. -/
def sepChar (c : Char) : Bool :=
  c == '/' || c == '-'

/-- Case-insensitive literal matching (`re.IGNORECASE`): consume the pattern
`ps` from the front of the input, comparing characters lowercased; return the
rest of the input on success. -/
def ciLit : List Char → List Char → Option (List Char)
  | [], cs => some cs
  | _ :: _, [] => none
  | p :: ps, c :: cs => if c.toLower = p.toLower then ciLit ps cs else none

/-- An optional literal character (`#?`, `:?`, `\$?`): consume it if present. -/
def optChar (a : Char) : List Char → List Char
  | [] => []
  | c :: cs => if c = a then cs else c :: cs

/-- `\d{2}`: exactly two digit characters. -/
def twoDigits : List Char → Option (List Char × List Char)
  | c1 :: c2 :: rest =>
    if c1.isDigit && c2.isDigit then some ([c1, c2], rest) else none
  | _ => none

/-- `\d{4}`: exactly four digit characters. -/
def fourDigits : List Char → Option (List Char × List Char)
  | c1 :: c2 :: c3 :: c4 :: rest =>
    if c1.isDigit && c2.isDigit && c3.isDigit && c4.isDigit then
      some ([c1, c2, c3, c4], rest)
    else none
  | _ => none

/-- The literal `invoice` (compared case-insensitively). -/
def invoiceLit : List Char := ['i', 'n', 'v', 'o', 'i', 'c', 'e']

/-- The literal `total`. -/
def totalLit : List Char := ['t', 'o', 't', 'a', 'l']

/-- The literal `amount`. -/
def amountLit : List Char := ['a', 'm', 'o', 'u', 'n', 't']

/-- The literal `grand`. -/
def grandLit : List Char := ['g', 'r', 'a', 'n', 'd']

/-- The literal `due`. -/
def dueLit : List Char := ['d', 'u', 'e']

/-- The literal `balance`. -/
def balanceLit : List Char := ['b', 'a', 'l', 'a', 'n', 'c', 'e']

/-- Matcher for `(Invoice\s*#?:?\s*)([A-Za-z0-9\-]+)` (IGNORECASE) at the
current position, returning group 2. -/
def invMatch (cs : List Char) : Option String :=
  match ciLit invoiceLit cs with
  | none => none
  | some r1 =>
    let r5 := (optChar ':' (optChar '#' (r1.dropWhile pySpace))).dropWhile pySpace
    let tok := r5.takeWhile invTokChar
    if tok.isEmpty then none else some (String.mk tok)

/-- First date alternative `\d{2}[/\-]\d{2}[/\-]\d{4}` at the current position,
returning the matched text. -/
def dateAlt1 (cs : List Char) : Option String :=
  match twoDigits cs with
  | some (a, s1 :: r1) =>
    if sepChar s1 then
      match twoDigits r1 with
      | some (b, s2 :: r2) =>
        if sepChar s2 then
          match fourDigits r2 with
          | some (y, _) => some (String.mk (a ++ s1 :: b ++ s2 :: y))
          | none => none
        else none
      | _ => none
    else none
  | _ => none

/-- Second date alternative `\d{4}[/\-]\d{2}[/\-]\d{2}`. -/
def dateAlt2 (cs : List Char) : Option String :=
  match fourDigits cs with
  | some (a, s1 :: r1) =>
    if sepChar s1 then
      match twoDigits r1 with
      | some (b, s2 :: r2) =>
        if sepChar s2 then
          match twoDigits r2 with
          | some (d, _) => some (String.mk (a ++ s1 :: b ++ s2 :: d))
          | none => none
        else none
      | _ => none
    else none
  | _ => none

/-- Tail `\s+\w+\s+\d{4}` of the third date alternative, after the day digits
`ds` have been consumed.  Each greedy run is forced because `\s` and `\w`
are disjoint and `\s` contains no digit. -/
def dateAlt3Core (ds rest : List Char) : Option String :=
  let sp1 := rest.takeWhile pySpace
  let r1 := rest.dropWhile pySpace
  if sp1.isEmpty then none
  else
    let w := r1.takeWhile pyWord
    let r2 := r1.dropWhile pyWord
    if w.isEmpty then none
    else
      let sp2 := r2.takeWhile pySpace
      let r3 := r2.dropWhile pySpace
      if sp2.isEmpty then none
      else
        match fourDigits r3 with
        | some (y, _) => some (String.mk (ds ++ sp1 ++ w ++ sp2 ++ y))
        | none => none

/-- Third date alternative `\d{1,2}\s+\w+\s+\d{4}`: the greedy `\d{1,2}`
tries two digits first, then falls back to one. -/
def dateAlt3 : List Char → Option String
  | [] => none
  | c1 :: r =>
    if c1.isDigit then
      match r with
      | c2 :: r2 =>
        if c2.isDigit then
          match dateAlt3Core [c1, c2] r2 with
          | some s => some s
          | none => dateAlt3Core [c1] (c2 :: r2)
        else dateAlt3Core [c1] (c2 :: r2)
      | [] => dateAlt3Core [c1] []
    else none

/-- Matcher for the date pattern at the current position (group 1): the three
alternatives are tried in their order in the regex. -/
def dateMatch (cs : List Char) : Option String :=
  match dateAlt1 cs with
  | some s => some s
  | none =>
    match dateAlt2 cs with
    | some s => some s
    | none => dateAlt3 cs

/-- Label alternative `Total\s*Amount\s*:?` (IGNORECASE), returning the rest. -/
def labelAlt1 (cs : List Char) : Option (List Char) :=
  match ciLit totalLit cs with
  | none => none
  | some r1 =>
    match ciLit amountLit (r1.dropWhile pySpace) with
    | none => none
    | some r2 => some (optChar ':' (r2.dropWhile pySpace))

/-- Label alternative `Grand\s*Total`. -/
def labelAlt2 (cs : List Char) : Option (List Char) :=
  match ciLit grandLit cs with
  | none => none
  | some r1 => ciLit totalLit (r1.dropWhile pySpace)

/-- Label alternative `Amount\s*Due`. -/
def labelAlt3 (cs : List Char) : Option (List Char) :=
  match ciLit amountLit cs with
  | none => none
  | some r1 => ciLit dueLit (r1.dropWhile pySpace)

/-- Label alternative `Balance`. -/
def labelAlt4 (cs : List Char) : Option (List Char) :=
  ciLit balanceLit cs

/-- The label alternation of the total pattern, in regex order.  The four
alternatives start with distinct letters, so at most one can match at a
given position. -/
def labelMatch (cs : List Char) : Option (List Char) :=
  match labelAlt1 cs with
  | some r => some r
  | none =>
    match labelAlt2 cs with
    | some r => some r
    | none =>
      match labelAlt3 cs with
      | some r => some r
      | none => labelAlt4 cs

/-- The amount `([\d,]+\.\d{2})`: a maximal nonempty run of `[\d,]`, a dot,
and two digits; further characters after the two digits are ignored (the
regex has no trailing anchor).  No backtracking into `[\d,]+` is possible
because a shortened run is followed by a `[\d,]` character, never `.`. -/
def amtMatch (cs : List Char) : Option String :=
  if (cs.takeWhile numChar).isEmpty then none
  else
    match cs.dropWhile numChar with
    | x :: b :: c :: _ =>
      if x = '.' then
        if b.isDigit && c.isDigit then
          some (String.mk (cs.takeWhile numChar ++ '.' :: b :: c :: []))
        else none
      else none
    | _ => none

/-- Matcher for `(Total\s*Amount\s*:?|Grand\s*Total|Amount\s*Due|Balance)\s*\$?([\d,]+\.\d{2})`
(IGNORECASE) at the current position, returning group 2. -/
def totalMatch (cs : List Char) : Option String :=
  match labelMatch cs with
  | none => none
  | some r1 => amtMatch (optChar '$' (r1.dropWhile pySpace))

/-- `re.search`: try the matcher at every start position, left to right,
including the end-of-string position; the first success wins. -/
def reSearch (m : List Char → Option String) : List Char → Option String
  | [] => m []
  | c :: cs =>
    match m (c :: cs) with
    | some s => some s
    | none => reSearch m cs

/-- The result record of `extract_invoice_fields`: the Python dict
`{"Invoice Number": …, "Invoice Date": …, "Total Amount": …}` with `None`
for an unmatched field. -/
structure InvoiceFields where
  invoiceNumber : Option String
  invoiceDate : Option String
  totalAmount : Option String
deriving Repr, DecidableEq

/-- `extract_invoice_fields` from `app.py`: run the three searches and
populate the fields of the result record from the capture groups. -/
def extract_invoice_fields (text : String) : InvoiceFields :=
  { invoiceNumber := reSearch invMatch text.data
    invoiceDate := reSearch dateMatch text.data
    totalAmount := reSearch totalMatch text.data }

/-! ## Generic properties of the search -/

/-- A match at the current (leftmost tried) position is the search result. -/
theorem reSearch_head {m : List Char → Option String} {l : List Char} {v : String}
    (h : m l = some v) : reSearch m l = some v := by
  cases l with
  | nil => simpa [reSearch] using h
  | cons c cs => simp [reSearch, h]

/-- The search fails exactly when the matcher fails at every position. -/
theorem reSearch_eq_none_iff (m : List Char → Option String) (l : List Char) :
    reSearch m l = none ↔ ∀ i, m (l.drop i) = none := by
  induction l with
  | nil => simp [reSearch]
  | cons c cs ih =>
    cases hm : m (c :: cs) with
    | some v =>
      simp only [reSearch, hm]
      constructor
      · intro h; simp at h
      · intro h
        have h0 := h 0
        rw [List.drop_zero, hm] at h0
        simp at h0
    | none =>
      have hstep : reSearch m (c :: cs) = reSearch m cs := by simp [reSearch, hm]
      rw [hstep, ih]
      constructor
      · intro h i
        cases i with
        | zero => simpa using hm
        | succ j => simpa using h j
      · intro h i
        simpa using h (i + 1)

/-- The search returns the match of the least position at which the matcher
succeeds: `re.search` leftmost semantics. -/
theorem reSearch_eq_some_of_least {m : List Char → Option String} (l : List Char) :
    ∀ (i : Nat) (v : String), m (l.drop i) = some v →
      (∀ k, k < i → m (l.drop k) = none) → reSearch m l = some v := by
  induction l with
  | nil =>
    intro i v h _
    rw [List.drop_nil] at h
    simpa [reSearch] using h
  | cons c cs ih =>
    intro i v h hmin
    cases i with
    | zero =>
      rw [List.drop_zero] at h
      exact reSearch_head h
    | succ j =>
      have h0 : m (c :: cs) = none := by simpa using hmin 0 (Nat.succ_pos j)
      have hstep : reSearch m (c :: cs) = reSearch m cs := by simp [reSearch, h0]
      rw [hstep]
      refine ih j v ?_ ?_
      · simpa using h
      · intro k hk
        simpa using hmin (k + 1) (Nat.succ_lt_succ hk)

/-- Every property of all matcher outputs holds of the search output. -/
theorem reSearch_some_prop {m : List Char → Option String} {P : String → Prop}
    (hP : ∀ cs w, m cs = some w → P w) :
    ∀ l v, reSearch m l = some v → P v := by
  intro l
  induction l with
  | nil =>
    intro v h
    exact hP [] v (by simpa [reSearch] using h)
  | cons c cs ih =>
    intro v h
    cases hm : m (c :: cs) with
    | some w =>
      have hv : w = v := by
        simp only [reSearch, hm] at h
        exact Option.some.inj h
      exact hv ▸ hP (c :: cs) w hm
    | none =>
      refine ih v ?_
      simpa only [reSearch, hm] using h

/-! ## Helper lemmas about runs and character classes -/

/-- A maximal run: `takeWhile` over a satisfying block followed by a
non-satisfying head returns exactly the block. -/
theorem takeWhile_append_all {p : Char → Bool} :
    ∀ t r : List Char, (∀ x ∈ t, p x = true) → (∀ x ∈ r.take 1, p x = false) →
      (t ++ r).takeWhile p = t := by
  intro t
  induction t with
  | nil =>
    intro r _ hr
    cases r with
    | nil => rfl
    | cons a r0 =>
      have ha : p a = false := hr a (by simp)
      simp [List.takeWhile_cons, ha]
  | cons a t0 ih =>
    intro r ht hr
    have ha : p a = true := ht a (by simp)
    simp only [List.cons_append, List.takeWhile_cons, ha, if_true]
    rw [ih r (fun x hx => ht x (by simp [hx])) hr]

/-- Characters of the invoice-number token class are not whitespace. -/
theorem invTokChar_not_space {x : Char} (h : invTokChar x = true) : pySpace x = false := by
  cases hps : pySpace x with
  | false => rfl
  | true =>
    exfalso
    simp only [pySpace, Bool.or_eq_true, beq_iff_eq] at hps
    rcases hps with ((((rfl | rfl) | rfl) | rfl) | rfl) | rfl <;> exact absurd h (by decide)

/-- Characters of the invoice-number token class are not the colon. -/
theorem invTokChar_ne_colon {x : Char} (h : invTokChar x = true) : x ≠ ':' := by
  intro heq
  subst heq
  exact absurd h (by decide)

/-- Every amount produced by the amount matcher is a nonempty run of digits
and commas, a decimal point, and exactly two digits. -/
theorem amtMatch_shape {cs : List Char} {w : String} (hw : amtMatch cs = some w) :
    ∃ a b c, w = String.mk (a ++ '.' :: b :: c :: []) ∧ a ≠ [] ∧
      (∀ x ∈ a, numChar x = true) ∧ b.isDigit = true ∧ c.isDigit = true := by
  unfold amtMatch at hw
  by_cases he : (cs.takeWhile numChar).isEmpty
  · rw [if_pos he] at hw
    simp at hw
  · rw [if_neg he] at hw
    cases hd : cs.dropWhile numChar with
    | nil =>
      simp only [hd] at hw
      exact Option.noConfusion hw
    | cons x rest =>
      cases rest with
      | nil =>
        simp only [hd] at hw
        exact Option.noConfusion hw
      | cons b rest2 =>
        cases rest2 with
        | nil =>
          simp only [hd] at hw
          exact Option.noConfusion hw
        | cons c rest3 =>
          simp only [hd] at hw
          by_cases hx : x = '.'
          · rw [if_pos hx] at hw
            by_cases hbc : b.isDigit && c.isDigit
            · rw [if_pos hbc] at hw
              rw [Bool.and_eq_true] at hbc
              refine ⟨cs.takeWhile numChar, b, c, (Option.some.inj hw).symm, ?_, ?_, ?_, ?_⟩
              · intro hnil
                exact he (by simp [hnil])
              · intro y hy
                exact List.mem_takeWhile_imp hy
              · exact hbc.1
              · exact hbc.2
            · rw [if_neg hbc] at hw
              simp at hw
          · rw [if_neg hx] at hw
            simp at hw

/-- Every total returned by the total matcher has the two-decimal shape. -/
theorem totalMatch_shape {cs : List Char} {w : String} (hw : totalMatch cs = some w) :
    ∃ a b c, w = String.mk (a ++ '.' :: b :: c :: []) ∧ a ≠ [] ∧
      (∀ x ∈ a, numChar x = true) ∧ b.isDigit = true ∧ c.isDigit = true := by
  unfold totalMatch at hw
  cases hl : labelMatch cs with
  | none =>
    simp only [hl] at hw
    exact Option.noConfusion hw
  | some r1 =>
    simp only [hl] at hw
    exact amtMatch_shape hw

/-! ## Claims -/

/-- C1: on the input "Invoice #12345 Total: $1,234.56 Date: 18/08/2025" the
code returns invoice number "12345" and date "18/08/2025", but NO total
amount: the total regex accepts only the labels "Total Amount", "Grand Total",
"Amount Due" and "Balance", so the bare label "Total" of this input does not
match — although the code's own comment lists "Total" among the supported
labels and the claim expects "1,234.56". -/
theorem c1_code_eval :
    extract_invoice_fields "Invoice #12345 Total: $1,234.56 Date: 18/08/2025"
      = { invoiceNumber := some "12345", invoiceDate := some "18/08/2025",
          totalAmount := none } := by
  rfl

/-- C2 counterexample: on "Invoice No: ABC-99\nGrand Total 999.99\n2025-08-18"
the code does not return "ABC-99" as the invoice number. -/
theorem c2_claim_false :
    (extract_invoice_fields "Invoice No: ABC-99\nGrand Total 999.99\n2025-08-18").invoiceNumber
      ≠ some "ABC-99" := by
  decide

/-- C2 amended: on "Invoice No: ABC-99\nGrand Total 999.99\n2025-08-18" the
code returns invoice number "No" — the regex knows no "No" marker, so the
token "No" itself is captured as the number — together with total amount
"999.99" and date "2025-08-18". -/
theorem c2_amended_eval :
    extract_invoice_fields "Invoice No: ABC-99\nGrand Total 999.99\n2025-08-18"
      = { invoiceNumber := some "No", invoiceDate := some "2025-08-18",
          totalAmount := some "999.99" } := by
  rfl

/-- C3 counterexample: "Invoice No. 777" contains the word "Invoice" followed
by the marker "No." and the token "777", yet the code captures "No" — the
marker text — as the invoice number instead of "777". -/
theorem c3_claim_false :
    (extract_invoice_fields "Invoice No. 777").invoiceNumber = some "No" ∧
      (extract_invoice_fields "Invoice No. 777").invoiceNumber ≠ some "777" :=
  ⟨rfl, by decide⟩

/-- C4: the code's total regex rejects the bare label "Total", and allows a
colon only after "Total Amount": "Total: 55.00" and "Grand Total: 55.00"
produce no total amount, while "Grand Total 55.00" (no colon) produces
"55.00" — contradicting the claim, which promises that all five labels,
including standalone "Total", with an optional ":", are accepted. -/
theorem c4_code_eval :
    (extract_invoice_fields "Total: 55.00").totalAmount = none ∧
      (extract_invoice_fields "Grand Total: 55.00").totalAmount = none ∧
      (extract_invoice_fields "Grand Total 55.00").totalAmount = some "55.00" :=
  ⟨rfl, rfl, rfl⟩

/-- C5: a field of the result is absent exactly when its pattern matches at no
position of the text; in particular, a field with no pattern occurrence is
never populated with a spurious value. -/
theorem c5_absent_iff_no_occurrence (s : String) :
    ((extract_invoice_fields s).invoiceNumber = none ↔
        ∀ i, invMatch (s.data.drop i) = none) ∧
      ((extract_invoice_fields s).invoiceDate = none ↔
        ∀ i, dateMatch (s.data.drop i) = none) ∧
      ((extract_invoice_fields s).totalAmount = none ↔
        ∀ i, totalMatch (s.data.drop i) = none) :=
  ⟨reSearch_eq_none_iff invMatch s.data, reSearch_eq_none_iff dateMatch s.data,
    reSearch_eq_none_iff totalMatch s.data⟩

/-- C5 applied at a text with no recognizable pattern for any field. -/
theorem c5_absent_iff_no_occurrence_app :
    ((extract_invoice_fields "hello world").invoiceNumber = none ↔
        ∀ i, invMatch (("hello world" : String).data.drop i) = none) ∧
      ((extract_invoice_fields "hello world").invoiceDate = none ↔
        ∀ i, dateMatch (("hello world" : String).data.drop i) = none) ∧
      ((extract_invoice_fields "hello world").totalAmount = none ↔
        ∀ i, totalMatch (("hello world" : String).data.drop i) = none) :=
  c5_absent_iff_no_occurrence "hello world"

/-- C6: the extractor is a total function — every input string yields a
fully-formed record — and on the empty string all three fields are absent. -/
theorem c6_total_and_empty :
    (∀ s : String, ∃ r : InvoiceFields, extract_invoice_fields s = r) ∧
      extract_invoice_fields ""
        = { invoiceNumber := none, invoiceDate := none, totalAmount := none } :=
  ⟨fun s => ⟨extract_invoice_fields s, rfl⟩, rfl⟩

/-- C9: first-match-wins for the total amount: if the total pattern matches at
position i of the text with amount v and at no earlier position, the extractor
returns v — the leftmost occurrence wins regardless of which label it used. -/
theorem c9_leftmost_total (s : String) (i : Nat) (v : String)
    (h : totalMatch (s.data.drop i) = some v)
    (hmin : ∀ k, k < i → totalMatch (s.data.drop k) = none) :
    (extract_invoice_fields s).totalAmount = some v :=
  reSearch_eq_some_of_least s.data i v h hmin

/-- C9 applied: "Grand Total 10.00 Balance 20.00" carries two labelled
amounts; the leftmost one ("Grand Total 10.00") wins. -/
theorem c9_leftmost_total_app :
    (extract_invoice_fields "Grand Total 10.00 Balance 20.00").totalAmount
      = some "10.00" :=
  c9_leftmost_total "Grand Total 10.00 Balance 20.00" 0 "10.00" (by decide)
    (fun k hk => absurd hk (Nat.not_lt_zero k))

/-- C10: the month slot of the textual date shape is `\w+`, which accepts
digits (and underscores): "18 999 2025", whose month token "999" is entirely
numeric, is still returned as the invoice date. -/
theorem c10_numeric_month :
    (extract_invoice_fields "18 999 2025").invoiceDate = some "18 999 2025" := by
  rfl

/-- C7: the amount pattern requires exactly two fraction digits: every
extracted total amount has the shape ⟨nonempty run of digits and commas⟩
followed by a decimal point and two digits, and a total label followed by a
number without that suffix yields an absent total — e.g. "Total: 100",
"Total Amount 100" and "Grand Total 100" all give no total amount. -/
theorem c7_two_decimals :
    (∀ s v : String, (extract_invoice_fields s).totalAmount = some v →
        ∃ a b c, v = String.mk (a ++ '.' :: b :: c :: []) ∧ a ≠ [] ∧
          (∀ x ∈ a, numChar x = true) ∧ b.isDigit = true ∧ c.isDigit = true) ∧
      (extract_invoice_fields "Total: 100").totalAmount = none ∧
      (extract_invoice_fields "Total Amount 100").totalAmount = none ∧
      (extract_invoice_fields "Grand Total 100").totalAmount = none := by
  refine ⟨?_, rfl, rfl, rfl⟩
  intro s v h
  exact reSearch_some_prop (fun cs w hw => totalMatch_shape hw) s.data v h

/-- C7 applied: the total "12.34" extracted from "Balance 12.34" has the
required two-decimal shape. -/
theorem c7_two_decimals_app :
    ∃ a b c, ("12.34" : String) = String.mk (a ++ '.' :: b :: c :: []) ∧ a ≠ [] ∧
      (∀ x ∈ a, numChar x = true) ∧ b.isDigit = true ∧ c.isDigit = true :=
  c7_two_decimals.1 "Balance 12.34" "12.34" (by decide)

/-- C8: date matching is purely lexical: any ten leading characters of shape
two digits, a separator in {/, -}, two digits, a separator, four digits are
returned as the invoice date whatever the digit values are — no calendrical
validation (such as month at most 12) is performed. -/
theorem c8_lexical_date (d1 d2 m1 m2 y1 y2 y3 y4 s1 s2 : Char) (rest : List Char)
    (hd1 : d1.isDigit = true) (hd2 : d2.isDigit = true)
    (hm1 : m1.isDigit = true) (hm2 : m2.isDigit = true)
    (hy1 : y1.isDigit = true) (hy2 : y2.isDigit = true)
    (hy3 : y3.isDigit = true) (hy4 : y4.isDigit = true)
    (hs1 : s1 = '/' ∨ s1 = '-') (hs2 : s2 = '/' ∨ s2 = '-') :
    (extract_invoice_fields (String.mk
        (d1 :: d2 :: s1 :: m1 :: m2 :: s2 :: y1 :: y2 :: y3 :: y4 :: rest))).invoiceDate
      = some (String.mk [d1, d2, s1, m1, m2, s2, y1, y2, y3, y4]) := by
  have hsep1 : sepChar s1 = true := by
    rcases hs1 with rfl | rfl <;> rfl
  have hsep2 : sepChar s2 = true := by
    rcases hs2 with rfl | rfl <;> rfl
  have hone : dateAlt1 (d1 :: d2 :: s1 :: m1 :: m2 :: s2 :: y1 :: y2 :: y3 :: y4 :: rest)
      = some (String.mk [d1, d2, s1, m1, m2, s2, y1, y2, y3, y4]) := by
    simp [dateAlt1, twoDigits, fourDigits, hd1, hd2, hm1, hm2, hy1, hy2, hy3, hy4,
      hsep1, hsep2]
  have hdm : dateMatch (d1 :: d2 :: s1 :: m1 :: m2 :: s2 :: y1 :: y2 :: y3 :: y4 :: rest)
      = some (String.mk [d1, d2, s1, m1, m2, s2, y1, y2, y3, y4]) := by
    simp only [dateMatch, hone]
  exact reSearch_head hdm

/-- C8 applied: "32/13/2025" is returned as the invoice date although day 32
and month 13 are calendrically invalid. -/
theorem c8_lexical_date_app :
    (extract_invoice_fields (String.mk
        ['3', '2', '/', '1', '3', '/', '2', '0', '2', '5'])).invoiceDate
      = some (String.mk ['3', '2', '/', '1', '3', '/', '2', '0', '2', '5']) :=
  c8_lexical_date '3' '2' '1' '3' '2' '0' '2' '5' '/' '/' []
    rfl rfl rfl rfl rfl rfl rfl rfl (Or.inl rfl) (Or.inl rfl)

/-- C3 amended: the invoice-number regex recognises no "No." marker and no "-"
separator — after the case-insensitive word "Invoice" it skips whitespace, at
most one "#", at most one ":" and more whitespace, then captures the maximal
nonempty run of alphanumeric-or-hyphen characters.  For any text that starts
with "Invoice #" followed by such a run, the run is captured; on the claim's
"Invoice No." form the word "No" itself is captured instead (see the
counterexample). -/
theorem c3_amended_capture (c : Char) (t0 r : List Char)
    (hc : invTokChar c = true)
    (ht : ∀ x ∈ t0, invTokChar x = true)
    (hr : ∀ x ∈ r.take 1, invTokChar x = false) :
    (extract_invoice_fields (String.mk
        ('I' :: 'n' :: 'v' :: 'o' :: 'i' :: 'c' :: 'e' :: ' ' :: '#' :: c :: (t0 ++ r)))).invoiceNumber
      = some (String.mk (c :: t0)) := by
  have h1 : ciLit invoiceLit
      ('I' :: 'n' :: 'v' :: 'o' :: 'i' :: 'c' :: 'e' :: ' ' :: '#' :: c :: (t0 ++ r))
      = some (' ' :: '#' :: c :: (t0 ++ r)) := rfl
  have h2 : List.dropWhile pySpace (' ' :: '#' :: c :: (t0 ++ r))
      = '#' :: c :: (t0 ++ r) := rfl
  have h3 : optChar '#' ('#' :: c :: (t0 ++ r)) = c :: (t0 ++ r) := rfl
  have h4 : optChar ':' (c :: (t0 ++ r)) = c :: (t0 ++ r) := by
    simp only [optChar]
    rw [if_neg (invTokChar_ne_colon hc)]
  have h5 : List.dropWhile pySpace (c :: (t0 ++ r)) = c :: (t0 ++ r) := by
    rw [List.dropWhile_cons]
    simp [invTokChar_not_space hc]
  have h6 : List.takeWhile invTokChar (c :: (t0 ++ r)) = c :: t0 := by
    have hsplit : c :: (t0 ++ r) = (c :: t0) ++ r := by simp
    rw [hsplit]
    refine takeWhile_append_all (c :: t0) r ?_ hr
    intro x hx
    rcases List.mem_cons.mp hx with h | h
    · exact h ▸ hc
    · exact ht x h
  have hmatch : invMatch
      ('I' :: 'n' :: 'v' :: 'o' :: 'i' :: 'c' :: 'e' :: ' ' :: '#' :: c :: (t0 ++ r))
      = some (String.mk (c :: t0)) := by
    simp only [invMatch, h1, h2, h3, h4, h5, h6]
    simp
  exact reSearch_head hmatch

/-- C3 amended, applied: "Invoice #12345 x" yields the token "12345" that
follows the "#" marker. -/
theorem c3_amended_capture_app :
    (extract_invoice_fields (String.mk
        ('I' :: 'n' :: 'v' :: 'o' :: 'i' :: 'c' :: 'e' :: ' ' :: '#' :: '1' ::
          (['2', '3', '4', '5'] ++ [' ', 'x'])))).invoiceNumber
      = some (String.mk ('1' :: ['2', '3', '4', '5'])) :=
  c3_amended_capture '1' ['2', '3', '4', '5'] [' ', 'x'] (by decide) (by decide)
    (by decide)
